import Mathlib

/-!
# Verification of the shipshape ConfigMap-reload controller

A shallow embedding of the controller sources (`controller/src/controller.py`,
`controller/src/leader.py`, `controller/src/kube.py`) together with proofs of
the behavioural claims about them.

Modelling conventions:

* Python `dict`s are modelled as association lists (`List (κ × α)`) with
  Python's semantics: assignment replaces the value in place when the key is
  present (preserving insertion order) and appends otherwise; `pop` removes
  the entry.  Under the no-duplicate-keys invariant these operations coincide
  with `dict` behaviour exactly.
* `time.monotonic()` instants are modelled as rationals (`ℚ`); wall-clock UTC
  datetimes are modelled as a record of calendar fields mirroring Python's
  `datetime`, whose comparison order is field-lexicographic.
* Machine integers do not occur in the control logic; SHA-256 is modelled over
  `Nat` with explicit reduction modulo `2 ^ 32`.
* The cluster API is modelled as successful typed operations; where a claim
  depends on API failures (per-deployment patch errors, executor failures,
  watch stream errors) the failure is an explicit oracle parameter.
-/

set_option maxHeartbeats 1000000
set_option maxRecDepth 200000

namespace Shipshape

/-! ## Association-list model of Python `dict` -/

variable {κ : Type} {α : Type}

/-- Python `d.get(k)` / `d[k]`: first (and, under `Nodup` keys, only) binding. -/
def lookupA [DecidableEq κ] : List (κ × α) → κ → Option α
  | [], _ => none
  | (k', v) :: t, k => if k' = k then some v else lookupA t k

/-- Python `d[k] = v`: replace in place when present, append otherwise. -/
def insertA [DecidableEq κ] : List (κ × α) → κ → α → List (κ × α)
  | [], k, v => [(k, v)]
  | (k', v') :: t, k, v => if k' = k then (k, v) :: t else (k', v') :: insertA t k v

/-- Python `d.pop(k, None)`: drop the binding for `k`. -/
def eraseA [DecidableEq κ] : List (κ × α) → κ → List (κ × α)
  | [], _ => []
  | (k', v') :: t, k => if k' = k then eraseA t k else (k', v') :: eraseA t k

/-- The keys of an association list, used to state the one-binding-per-key invariant. -/
def keysA : List (κ × α) → List κ := List.map Prod.fst

@[simp] theorem lookupA_nil [DecidableEq κ] (k : κ) : lookupA ([] : List (κ × α)) k = none := rfl

@[simp] theorem lookupA_insertA_self [DecidableEq κ] (m : List (κ × α)) (k : κ) (v : α) :
    lookupA (insertA m k v) k = some v := by
  induction m with
  | nil => simp [insertA, lookupA]
  | cons p t ih =>
    obtain ⟨k', v'⟩ := p
    by_cases h : k' = k
    · subst h
      simp [insertA, lookupA]
    · simp [insertA, lookupA, h, ih]

theorem lookupA_insertA_ne [DecidableEq κ] (m : List (κ × α)) {k k' : κ} (v : α)
    (h : k' ≠ k) : lookupA (insertA m k v) k' = lookupA m k' := by
  induction m with
  | nil => simp [insertA, lookupA, Ne.symm h]
  | cons p t ih =>
    obtain ⟨k₀, v₀⟩ := p
    by_cases h₀ : k₀ = k
    · subst h₀
      simp [insertA, lookupA, Ne.symm h]
    · simp only [insertA, if_neg h₀, lookupA]
      by_cases h₁ : k₀ = k' <;> simp [h₁, ih]

@[simp] theorem lookupA_eraseA_self [DecidableEq κ] (m : List (κ × α)) (k : κ) :
    lookupA (eraseA m k) k = none := by
  induction m with
  | nil => simp [eraseA]
  | cons p t ih =>
    obtain ⟨k', v'⟩ := p
    by_cases h : k' = k <;> simp [eraseA, lookupA, h, ih]

theorem lookupA_eraseA_ne [DecidableEq κ] (m : List (κ × α)) {k k' : κ}
    (h : k' ≠ k) : lookupA (eraseA m k) k' = lookupA m k' := by
  induction m with
  | nil => simp [eraseA]
  | cons p t ih =>
    obtain ⟨k₀, v₀⟩ := p
    by_cases h₀ : k₀ = k
    · subst h₀
      simp [eraseA, lookupA, Ne.symm h, ih]
    · simp only [eraseA, if_neg h₀, lookupA]
      by_cases h₁ : k₀ = k' <;> simp [h₁, ih]

theorem mem_keysA_insertA [DecidableEq κ] {k x : κ} {v : α} :
    ∀ {m : List (κ × α)}, x ∈ keysA (insertA m k v) → x ∈ keysA m ∨ x = k := by
  intro m
  induction m with
  | nil =>
    intro hx
    right
    simpa [insertA, keysA] using hx
  | cons p t ih =>
    obtain ⟨k₀, v₀⟩ := p
    intro hx
    by_cases h₀ : k₀ = k
    · subst h₀
      have hi : insertA ((k₀, v₀) :: t) k₀ v = (k₀, v) :: t := by simp [insertA]
      rw [hi] at hx
      simp only [keysA, List.map_cons, List.mem_cons] at hx
      rcases hx with hx | hx
      · exact Or.inr hx
      · exact Or.inl (List.mem_cons_of_mem _ hx)
    · simp only [insertA, if_neg h₀, keysA, List.map_cons, List.mem_cons] at hx
      rcases hx with hx | hx
      · exact Or.inl (by simp [keysA, hx])
      · rcases ih hx with hh | hh
        · exact Or.inl (List.mem_cons_of_mem _ hh)
        · exact Or.inr hh

theorem mem_keysA_eraseA [DecidableEq κ] {k x : κ} :
    ∀ {m : List (κ × α)}, x ∈ keysA (eraseA m k) → x ∈ keysA m := by
  intro m
  induction m with
  | nil =>
    intro hx
    simp [eraseA, keysA] at hx
  | cons p t ih =>
    obtain ⟨k₀, v₀⟩ := p
    intro hx
    by_cases h₀ : k₀ = k
    · simp only [eraseA, if_pos h₀] at hx
      exact List.mem_cons_of_mem _ (ih hx)
    · simp only [eraseA, if_neg h₀, keysA, List.map_cons, List.mem_cons] at hx
      rcases hx with hx | hx
      · simp [keysA, hx]
      · exact List.mem_cons_of_mem _ (ih hx)

theorem keysA_insertA_nodup [DecidableEq κ] (m : List (κ × α)) (k : κ) (v : α)
    (h : (keysA m).Nodup) : (keysA (insertA m k v)).Nodup := by
  induction m with
  | nil => simp [insertA, keysA]
  | cons p t ih =>
    obtain ⟨k₀, v₀⟩ := p
    simp only [keysA, List.map_cons, List.nodup_cons] at h
    by_cases h₀ : k₀ = k
    · subst h₀
      have hi : insertA ((k₀, v₀) :: t) k₀ v = (k₀, v) :: t := by simp [insertA]
      rw [hi]
      simp only [keysA, List.map_cons, List.nodup_cons]
      exact ⟨h.1, h.2⟩
    · simp only [insertA, if_neg h₀, keysA, List.map_cons, List.nodup_cons]
      refine ⟨fun hm => ?_, ih h.2⟩
      rcases mem_keysA_insertA hm with hh | hh
      · exact h.1 hh
      · exact h₀ hh

theorem keysA_eraseA_nodup [DecidableEq κ] (m : List (κ × α)) (k : κ)
    (h : (keysA m).Nodup) : (keysA (eraseA m k)).Nodup := by
  induction m with
  | nil => simp [eraseA, keysA]
  | cons p t ih =>
    obtain ⟨k₀, v₀⟩ := p
    simp only [keysA, List.map_cons, List.nodup_cons] at h
    by_cases h₀ : k₀ = k
    · simp only [eraseA, if_pos h₀]
      exact ih h.2
    · simp only [eraseA, if_neg h₀, keysA, List.map_cons, List.nodup_cons]
      exact ⟨fun hm => h.1 (mem_keysA_eraseA hm), ih h.2⟩

/-! ## Leader election (`controller/src/leader.py`)

The Lease object and a single acquire-or-renew cycle of `LeaseLeaderElector`.
Instants are UTC times in seconds (`Int`); the cluster API operations
(`read`/`create`/`replace` Lease) are modelled as succeeding, which is the
scenario the claim about clean-release takeover describes. -/

/-- `V1LeaseSpec`: the fields the elector reads and writes. -/
structure LeaseSpec where
  holderIdentity : Option String := none
  leaseDurationSeconds : Option Int := none
  acquireTime : Option Int := none
  renewTime : Option Int := none
deriving DecidableEq, Repr

/-- `V1Lease` (the `metadata` is irrelevant to the election logic). -/
structure Lease where
  spec : Option LeaseSpec := none
deriving DecidableEq, Repr

/-- The elector configuration fields used by a single cycle. -/
structure ElectorConfig where
  identity : String
  leaseDurationSeconds : Int
deriving DecidableEq, Repr

/-- Python `spec.lease_duration_seconds or self.lease_duration_seconds`
(`None` and `0` are both falsy). -/
def leaseDurationOr (v : Option Int) (dflt : Int) : Int :=
  match v with
  | some d => if d = 0 then dflt else d
  | none => dflt

/-- `LeaseLeaderElector._create_lease` with the create call succeeding:
returns acquired and the new cluster Lease. -/
def createLease (cfg : ElectorConfig) (now : Int) : Bool × Option Lease :=
  (true,
    some { spec := some { holderIdentity := some cfg.identity,
                          leaseDurationSeconds := some cfg.leaseDurationSeconds,
                          acquireTime := some now,
                          renewTime := some now } })

/-- `LeaseLeaderElector._update_lease` with the replace call succeeding. -/
def updateLease (cfg : ElectorConfig) (lease : Lease) (now : Int) : Bool × Option Lease :=
  let spec0 : LeaseSpec := lease.spec.getD {}
  let previousHolder := spec0.holderIdentity
  let spec1 : LeaseSpec :=
    { spec0 with
      holderIdentity := some cfg.identity,
      renewTime := some now,
      leaseDurationSeconds := some cfg.leaseDurationSeconds,
      acquireTime :=
        if spec0.acquireTime = none ∨ previousHolder ≠ some cfg.identity then some now
        else spec0.acquireTime }
  (true, some { spec := some spec1 })

/-- `LeaseLeaderElector._try_acquire_or_renew`: one cycle against the cluster
Lease state (`none` models a 404 on read).  Returns whether leadership was
acquired/renewed together with the resulting cluster Lease. -/
def tryAcquireOrRenew (cfg : ElectorConfig) (now : Int) (cluster : Option Lease) :
    Bool × Option Lease :=
  match cluster with
  | none => createLease cfg now
  | some lease =>
    match lease.spec with
    | none => updateLease cfg lease now
    | some spec =>
      let holder := spec.holderIdentity
      let duration := leaseDurationOr spec.leaseDurationSeconds cfg.leaseDurationSeconds
      if holder = some cfg.identity then updateLease cfg lease now
      else
        match spec.renewTime with
        | some rt =>
          if now - rt < duration then (false, some lease)
          else updateLease cfg lease now
        | none => updateLease cfg lease now

/-- `LeaseLeaderElector._release_lease` with both API calls succeeding:
clear `holder_identity` iff it is still ours; `renew_time` is left unchanged. -/
def releaseLease (identity : String) (cluster : Option Lease) : Option Lease :=
  match cluster with
  | none => none
  | some lease =>
    match lease.spec with
    | some spec =>
      if spec.holderIdentity = some identity then
        some { spec := some { spec with holderIdentity := none } }
      else some lease
    | none => some lease

/-! ## SHA-256 (`hashlib.sha256(...).hexdigest()`)

An executable FIPS 180-4 SHA-256 over byte lists, with 32-bit words as `Nat`
reduced modulo `2 ^ 32 = 4294967296`.  Validated against `hashlib` on the
standard test vectors. -/

/-- Right rotation of a 32-bit word held in a `Nat`. -/
def rotr32 (n w : Nat) : Nat := (w / 2 ^ n) + (w % 2 ^ n) * 2 ^ (32 - n)

def bigSigma0 (x : Nat) : Nat := Nat.xor (Nat.xor (rotr32 2 x) (rotr32 13 x)) (rotr32 22 x)

def bigSigma1 (x : Nat) : Nat := Nat.xor (Nat.xor (rotr32 6 x) (rotr32 11 x)) (rotr32 25 x)

def smallSigma0 (x : Nat) : Nat := Nat.xor (Nat.xor (rotr32 7 x) (rotr32 18 x)) (x / 2 ^ 3)

def smallSigma1 (x : Nat) : Nat := Nat.xor (Nat.xor (rotr32 17 x) (rotr32 19 x)) (x / 2 ^ 10)

def chooseF (x y z : Nat) : Nat := Nat.xor (Nat.land x y) (Nat.land (Nat.xor x 4294967295) z)

def majF (x y z : Nat) : Nat := Nat.xor (Nat.xor (Nat.land x y) (Nat.land x z)) (Nat.land y z)

/-- The 64 SHA-256 round constants (FIPS 180-4 §4.2.2, written in decimal). -/
def sha256K : List Nat :=
  [1116352408, 1899447441, 3049323471, 3921009573,
   961987163, 1508970993, 2453635748, 2870763221,
   3624381080, 310598401, 607225278, 1426881987,
   1925078388, 2162078206, 2614888103, 3248222580,
   3835390401, 4022224774, 264347078, 604807628,
   770255983, 1249150122, 1555081692, 1996064986,
   2554220882, 2821834349, 2952996808, 3210313671,
   3336571891, 3584528711, 113926993, 338241895,
   666307205, 773529912, 1294757372, 1396182291,
   1695183700, 1986661051, 2177026350, 2456956037,
   2730485921, 2820302411, 3259730800, 3345764771,
   3516065817, 3600352804, 4094571909, 275423344,
   430227734, 506948616, 659060556, 883997877,
   958139571, 1322822218, 1537002063, 1747873779,
   1955562222, 2024104815, 2227730452, 2361852424,
   2428436474, 2756734187, 3204031479, 3329325298]

/-- The eight 32-bit working variables / digest words. -/
structure Hash8 where
  a : Nat
  b : Nat
  c : Nat
  d : Nat
  e : Nat
  f : Nat
  g : Nat
  h : Nat
deriving Repr, DecidableEq

/-- SHA-256 initial hash value (FIPS 180-4 §5.3.3, written in decimal). -/
def sha256H0 : Hash8 :=
  ⟨1779033703, 3144134277, 1013904242, 2773480762,
   1359893119, 2600822924, 528734635, 1541459225⟩

/-- The 64 compression rounds, consuming `(k, w)` pairs. -/
def compressRounds : List (Nat × Nat) → Hash8 → Hash8
  | [], st => st
  | (k, w) :: rest, st =>
    let t1 := (st.h + bigSigma1 st.e + chooseF st.e st.f st.g + k + w) % 4294967296
    let t2 := (bigSigma0 st.a + majF st.a st.b st.c) % 4294967296
    compressRounds rest
      ⟨(t1 + t2) % 4294967296, st.a, st.b, st.c, (st.d + t1) % 4294967296, st.e, st.f, st.g⟩

/-- Extend the 16-word block to the 64-word message schedule (`n = 48` steps). -/
def extendSchedule : Nat → List Nat → List Nat
  | 0, ws => ws
  | n + 1, ws =>
    let i := ws.length
    let w := (smallSigma1 (ws.getD (i - 2) 0) + ws.getD (i - 7) 0 +
              smallSigma0 (ws.getD (i - 15) 0) + ws.getD (i - 16) 0) % 4294967296
    extendSchedule n (ws ++ [w])

/-- Big-endian bytes → 32-bit words. -/
def bytesToWords : List Nat → List Nat
  | b0 :: b1 :: b2 :: b3 :: rest => (((b0 * 256 + b1) * 256 + b2) * 256 + b3) :: bytesToWords rest
  | _ => []

/-- Split into 64-byte chunks (fuel-driven; called with the list length). -/
def chunks64 : Nat → List Nat → List (List Nat)
  | 0, _ => []
  | _, [] => []
  | fuel + 1, bs => bs.take 64 :: chunks64 fuel (bs.drop 64)

/-- SHA-256 padding: `0x80`, zeros to 56 mod 64, then the 64-bit bit length. -/
def padMessage (msg : List Nat) : List Nat :=
  let bitLen := msg.length * 8
  let zeros := (120 - (msg.length + 1) % 64) % 64
  msg ++ 128 :: List.replicate zeros 0 ++
    (List.range 8).map (fun i => bitLen / 2 ^ (8 * (7 - i)) % 256)

/-- SHA-256 of a byte list, as the eight digest words. -/
def sha256Digest (msg : List Nat) : Hash8 :=
  let padded := padMessage msg
  (chunks64 padded.length padded).foldl
    (fun st chunk =>
      let ws := extendSchedule 48 (bytesToWords chunk)
      let c := compressRounds (sha256K.zip ws) st
      ⟨(st.a + c.a) % 4294967296, (st.b + c.b) % 4294967296, (st.c + c.c) % 4294967296,
       (st.d + c.d) % 4294967296, (st.e + c.e) % 4294967296, (st.f + c.f) % 4294967296,
       (st.g + c.g) % 4294967296, (st.h + c.h) % 4294967296⟩)
    sha256H0

/-- Lower-case hex digit. -/
def hexDigitChar (n : Nat) : Char := Char.ofNat (if n < 10 then 48 + n else 87 + n)

/-- Eight hex characters of one 32-bit word (most significant nibble first). -/
def wordHex8 (w : Nat) : List Char := (List.range 8).map (fun i => hexDigitChar (w / 16 ^ (7 - i) % 16))

/-- `hexdigest()`: 64 lower-case hex characters. -/
def hash8Hex (st : Hash8) : List Char :=
  wordHex8 st.a ++ wordHex8 st.b ++ wordHex8 st.c ++ wordHex8 st.d ++
  wordHex8 st.e ++ wordHex8 st.f ++ wordHex8 st.g ++ wordHex8 st.h

/-- UTF-8 encoding of one code point. -/
def encodeUtf8 (n : Nat) : List Nat :=
  if n < 128 then [n]
  else if n < 2048 then [192 + n / 64, 128 + n % 64]
  else if n < 65536 then [224 + n / 4096, 128 + n / 64 % 64, 128 + n % 64]
  else [240 + n / 262144, 128 + n / 4096 % 64, 128 + n / 64 % 64, 128 + n % 64]

/-- Python `s.encode("utf-8")`. -/
def utf8Bytes (s : String) : List Nat := s.data.flatMap (fun c => encodeUtf8 c.toNat)

/-- `sha256(s.encode("utf-8")).hexdigest()`. -/
def sha256hex (s : String) : String := String.mk (hash8Hex (sha256Digest (utf8Bytes s)))

/-! ## JSON serialisation (`json.dumps(..., sort_keys=True, separators=(",", ":"))`)

Only the `dict[str, str]` case the controller serialises is needed.  Default
`ensure_ascii=True` semantics: characters outside `0x20 ..= 0x7e` are emitted
as `\uXXXX` (with surrogate pairs above the BMP); the two-character short
escapes are used where Python uses them.  Validated against `json.dumps`. -/

def hex4Lower (n : Nat) : List Char := (List.range 4).map (fun i => hexDigitChar (n / 16 ^ (3 - i) % 16))

def jsonEscapeChar (c : Char) : List Char :=
  let n := c.toNat
  if n = 34 then ['\\', '"']
  else if n = 92 then ['\\', '\\']
  else if n = 10 then ['\\', 'n']
  else if n = 9 then ['\\', 't']
  else if n = 13 then ['\\', 'r']
  else if n = 8 then ['\\', 'b']
  else if n = 12 then ['\\', 'f']
  else if n < 32 then '\\' :: 'u' :: hex4Lower n
  else if n < 127 then [c]
  else if n < 65536 then '\\' :: 'u' :: hex4Lower n
  else
    ('\\' :: 'u' :: hex4Lower (55296 + (n - 65536) / 1024)) ++
    ('\\' :: 'u' :: hex4Lower (56320 + (n - 65536) % 1024))

def jsonStringChars (s : String) : List Char :=
  '"' :: s.data.flatMap jsonEscapeChar ++ ['"']

/-- `json.dumps` of a string-to-string mapping with sorted keys and compact
separators (`0x7b`/`0x7d` are the surrounding braces). -/
def jsonDumpsSorted (m : List (String × String)) : String :=
  let sorted := m.mergeSort (fun a b => !decide (b.1 < a.1))
  let entries := sorted.map (fun kv => jsonStringChars kv.1 ++ ':' :: jsonStringChars kv.2)
  String.mk (Char.ofNat 123 :: List.intercalate [','] entries ++ [Char.ofNat 125])

/-! ## Content hasher (`ConfigMapReloader._normalize_data` / `_hash_data`) -/

/-- `_normalize_data`: a ConfigMap `data` field is a string-keyed mapping with
possibly-`None` values (`none` for the whole field models a missing / non-dict
`data`); `None` values become the empty string. -/
def normalizeData : Option (List (String × Option String)) → List (String × String)
  | none => []
  | some raw => raw.map (fun kv => (kv.1, kv.2.getD ""))

/-- `_hash_data` composed with `_normalize_data`: the SHA-256 hex digest of the
stable compact JSON serialisation of the normalised data. -/
def hashData (raw : Option (List (String × Option String))) : String :=
  sha256hex (jsonDumpsSorted (normalizeData raw))

/-! ## Hash-annotation key derivation (`ConfigMapReloader._config_hash_annotation_key`) -/

/-- Membership in the character class `[A-Za-z0-9_.-]` of the slug regex. -/
def isSlugChar (c : Char) : Bool :=
  (decide ('A' ≤ c) && decide (c ≤ 'Z')) || (decide ('a' ≤ c) && decide (c ≤ 'z')) ||
  (decide ('0' ≤ c) && decide (c ≤ '9')) || decide (c = '_') || decide (c = '.') ||
  decide (c = '-')

/-- Worker for `collapseRuns`: the flag records whether the previous character
was part of an (already replaced) invalid run. -/
def collapseRunsAux : Bool → List Char → List Char
  | _, [] => []
  | prevInvalid, c :: rest =>
    if isSlugChar c then c :: collapseRunsAux false rest
    else if prevInvalid then collapseRunsAux true rest
    else '-' :: collapseRunsAux true rest

/-- `re.sub(r"[^A-Za-z0-9_.-]+", "-", s)`: every maximal run of characters
outside the class becomes a single `-`. -/
def collapseRuns (cs : List Char) : List Char := collapseRunsAux false cs

/-- Python `str.rstrip(chars)`. -/
def rstripChars (cs : List Char) (strip : List Char) : List Char :=
  (cs.reverse.dropWhile (fun c => decide (c ∈ strip))).reverse

/-- Python `str.strip(chars)`. -/
def stripChars (cs : List Char) (strip : List Char) : List Char :=
  rstripChars (cs.dropWhile (fun c => decide (c ∈ strip))) strip

/-- The `normalized_name` of `_config_hash_annotation_key`: collapse invalid
runs, strip leading/trailing `-`/`.`, default to `"configmap"` when empty. -/
def normalizedNameOf (configMapName : String) : List Char :=
  let n := stripChars (collapseRuns configMapName.data) ['-', '.']
  if n = [] then "configmap".data else n

/-- The annotation local name computed by `_config_hash_annotation_key`
(everything except re-attaching the `prefix/` part). -/
def configHashLocalName (configMapName : String) : List Char :=
  let normalized := normalizedNameOf configMapName
  let annotationName := "config-hash-".data ++ normalized
  if annotationName.length > 63 then
    let suffix := (sha256hex configMapName).data.take 10
    let maxStemLength := 63 - "config-hash--".length - suffix.length
    let trimmed0 := rstripChars (normalized.take (max 1 maxStemLength)) ['-', '.']
    let trimmed := if trimmed0 = [] then "configmap".data else trimmed0
    "config-hash-".data ++ trimmed ++ '-' :: suffix
  else annotationName

/-- `_config_hash_annotation_key`: split the rollout annotation key on the
first `/` (Python `str.partition`) and re-attach the namespace part. -/
def configHashAnnotationKey (rolloutKey : String) (configMapName : String) : String :=
  match rolloutKey.splitOn "/" with
  | [] => String.mk (configHashLocalName configMapName)
  | [_] => String.mk (configHashLocalName configMapName)
  | p :: _ => p ++ "/" ++ String.mk (configHashLocalName configMapName)

/-- The slug exactly as the specification words it: *every character* outside
`[A-Za-z0-9_.-]` replaced by `-` (no run collapsing), then trimmed.  Written
from the spec, to be compared with `collapseRuns` from the source. -/
def slugSpecOf (configMapName : String) : List Char :=
  stripChars (configMapName.data.map (fun c => if isSlugChar c then c else '-')) ['-', '.']

/-! ## Wall-clock timestamps (`utc_now_rfc3339`)

A UTC instant is modelled as Python's `datetime` record of calendar fields;
Python compares `datetime`s field-lexicographically, which for valid UTC
datetimes coincides with wall-clock order. -/

/-- The fields of an aware UTC `datetime.datetime`. -/
structure PyDateTime where
  year : Nat
  month : Nat
  day : Nat
  hour : Nat
  minute : Nat
  second : Nat
  microsecond : Nat
deriving DecidableEq, Repr

/-- Field ranges of a valid `datetime` (years are 1–9999 in Python). -/
def dtValid (t : PyDateTime) : Prop :=
  1 ≤ t.year ∧ t.year ≤ 9999 ∧ 1 ≤ t.month ∧ t.month ≤ 12 ∧ 1 ≤ t.day ∧ t.day ≤ 31 ∧
  t.hour ≤ 23 ∧ t.minute ≤ 59 ∧ t.second ≤ 59 ∧ t.microsecond ≤ 999999

instance (t : PyDateTime) : Decidable (dtValid t) := by
  unfold dtValid
  infer_instance

/-- Python `datetime` comparison: lexicographic on all fields, down to the
microsecond.  On valid UTC datetimes this is wall-clock order. -/
def dtLt (t1 t2 : PyDateTime) : Prop :=
  t1.year < t2.year ∨ (t1.year = t2.year ∧
    (t1.month < t2.month ∨ (t1.month = t2.month ∧
      (t1.day < t2.day ∨ (t1.day = t2.day ∧
        (t1.hour < t2.hour ∨ (t1.hour = t2.hour ∧
          (t1.minute < t2.minute ∨ (t1.minute = t2.minute ∧
            (t1.second < t2.second ∨ (t1.second = t2.second ∧
              t1.microsecond < t2.microsecond)))))))))))

instance (t1 t2 : PyDateTime) : Decidable (dtLt t1 t2) := by
  unfold dtLt
  infer_instance

/-- Strict order at second resolution: the instants lie in different
wall-clock seconds (i.e. they differ after `replace(microsecond=0)`). -/
def dtSecLt (t1 t2 : PyDateTime) : Prop :=
  t1.year < t2.year ∨ (t1.year = t2.year ∧
    (t1.month < t2.month ∨ (t1.month = t2.month ∧
      (t1.day < t2.day ∨ (t1.day = t2.day ∧
        (t1.hour < t2.hour ∨ (t1.hour = t2.hour ∧
          (t1.minute < t2.minute ∨ (t1.minute = t2.minute ∧
            t1.second < t2.second)))))))))

instance (t1 t2 : PyDateTime) : Decidable (dtSecLt t1 t2) := by
  unfold dtSecLt
  infer_instance

/-- The instants lie in the same wall-clock second. -/
def dtSameSec (t1 t2 : PyDateTime) : Prop :=
  t1.year = t2.year ∧ t1.month = t2.month ∧ t1.day = t2.day ∧
  t1.hour = t2.hour ∧ t1.minute = t2.minute ∧ t1.second = t2.second

instance (t1 t2 : PyDateTime) : Decidable (dtSameSec t1 t2) := by
  unfold dtSameSec
  infer_instance

/-- The decimal digit characters `'0'..'9'`. -/
def digitChar (d : Nat) : Char := Char.ofNat (48 + d)

/-- Zero-padded fixed-width decimal rendering, most significant digit first. -/
def padDigits : Nat → Nat → List Char
  | 0, _ => []
  | k + 1, m => digitChar (m / 10 ^ k) :: padDigits k (m % 10 ^ k)

/-- The characters of `utc_now_rfc3339` evaluated at instant `t`:
`datetime.now(UTC).replace(microsecond=0).isoformat().replace("+00:00", "Z")`,
i.e. `YYYY-MM-DDTHH:MM:SSZ` (the microsecond field is truncated away). -/
def dtChars (t : PyDateTime) : List Char :=
  padDigits 4 t.year ++ '-' ::
    (padDigits 2 t.month ++ '-' ::
      (padDigits 2 t.day ++ 'T' ::
        (padDigits 2 t.hour ++ ':' ::
          (padDigits 2 t.minute ++ ':' ::
            (padDigits 2 t.second ++ ['Z'])))))

/-- `utc_now_rfc3339` as a function of the current UTC instant. -/
def utcNowRfc3339 (t : PyDateTime) : String := String.mk (dtChars t)

/-! ## Reconciliation engine state (`ConfigMapReloader`)

The engine's four dicts keyed by `K = (env, configmap_name)`, plus the `ready`
flag and a mirror of the `dropped_restarts_total` counter (the only metric a
claim mentions).  The restart executor together with the cluster API behind it
is abstracted as an oracle `exec : EngineKey → RestartResult`, exactly the
interface `_restart_and_record` consumes. -/

/-- The `RestartResult` dataclass. -/
structure RestartResult where
  environment : String
  matchedDeployments : Nat
  restarted : Nat
  failed : Nat
deriving DecidableEq, Repr

/-- `(env, configmap_name)`. -/
abbrev EngineKey := String × String

/-- The constructor parameters of `ConfigMapReloader` the claims touch.
`appLabelFilters` is the parsed form of `app_selector`. -/
structure ReloaderConfig where
  appLabelFilters : List (String × String)
  rolloutAnnotationKey : String
  debounceSeconds : Int
deriving Repr

/-- The engine's mutable state. -/
structure EngineState where
  lastRestart : List (EngineKey × ℚ) := []
  lastDataHash : List (EngineKey × String) := []
  pendingRestarts : List (EngineKey × ℚ) := []
  pendingRetryAttempts : List (EngineKey × Nat) := []
  droppedRestartsTotal : Nat := 0
  ready : Bool := false
deriving DecidableEq, Repr

/-- `_matches_app_labels`: every selector pair must be present in the labels. -/
def matchesAppLabels (cfg : ReloaderConfig) (labels : List (String × String)) : Bool :=
  cfg.appLabelFilters.all (fun kv => lookupA labels kv.1 == some kv.2)

/-- `_debounce_remaining`. -/
def debounceRemaining (cfg : ReloaderConfig) (s : EngineState) (key : EngineKey)
    (now : ℚ) : ℚ :=
  if cfg.debounceSeconds ≤ 0 then 0
  else
    match lookupA s.lastRestart key with
    | none => 0
    | some lastSeen => max 0 ((cfg.debounceSeconds : ℚ) - (now - lastSeen))

/-- `_schedule_pending_restart`: push the due-at forward, never earlier;
optionally clear the retry counter. -/
def schedulePendingRestart (s : EngineState) (key : EngineKey) (now delaySeconds : ℚ)
    (resetRetryAttempt : Bool) : EngineState :=
  let dueAt := now + delaySeconds
  let s1 :=
    match lookupA s.pendingRestarts key with
    | none => { s with pendingRestarts := insertA s.pendingRestarts key dueAt }
    | some existingDue =>
      if dueAt > existingDue then
        { s with pendingRestarts := insertA s.pendingRestarts key dueAt }
      else s
  if resetRetryAttempt then
    { s1 with pendingRetryAttempts := eraseA s1.pendingRetryAttempts key }
  else s1

/-- `_mark_restart_executed`. -/
def markRestartExecuted (s : EngineState) (key : EngineKey) (now : ℚ) : EngineState :=
  { s with
    lastRestart := insertA s.lastRestart key now,
    pendingRestarts := eraseA s.pendingRestarts key,
    pendingRetryAttempts := eraseA s.pendingRetryAttempts key }

/-- `_schedule_retry`: bounded exponential backoff. -/
def scheduleRetry (s : EngineState) (key : EngineKey) (now : ℚ) : EngineState :=
  let retryAttempt := (lookupA s.pendingRetryAttempts key).getD 0 + 1
  let delaySeconds : ℚ := min 30 ((2 : ℚ) ^ (retryAttempt - 1))
  { s with
    pendingRetryAttempts := insertA s.pendingRetryAttempts key retryAttempt,
    pendingRestarts := insertA s.pendingRestarts key (now + delaySeconds) }

/-- `_restart_and_record`: one executor call plus queue reconciliation. -/
def restartAndRecord (exec : EngineKey → RestartResult) (s : EngineState)
    (key : EngineKey) (now : ℚ) (force : Bool) : EngineState × RestartResult :=
  let result := exec key
  if result.failed = 0 then (markRestartExecuted s key now, result)
  else if force then
    ({ s with
       pendingRestarts := eraseA s.pendingRestarts key,
       pendingRetryAttempts := eraseA s.pendingRetryAttempts key,
       droppedRestartsTotal := s.droppedRestartsTotal + 1 }, result)
  else (scheduleRetry s key now, result)

/-- `_drain_pending_restarts`: snapshot of the due keys, then execute each. -/
def drainPendingRestarts (exec : EngineKey → RestartResult) (s : EngineState)
    (now : ℚ) : EngineState :=
  let dueRestarts := (s.pendingRestarts.filter (fun p => decide (p.2 ≤ now))).map Prod.fst
  dueRestarts.foldl (fun st key => (restartAndRecord exec st key now false).1) s

/-- `_flush_pending_restarts_on_shutdown` (the `time.monotonic()` readings of
the loop are modelled as the single instant `now`; the executor oracle is
total, so the `except Exception` arm is unreachable in the model). -/
def flushPendingRestartsOnShutdown (exec : EngineKey → RestartResult)
    (s : EngineState) (now : ℚ) : EngineState :=
  if s.pendingRestarts = [] then s
  else
    (s.pendingRestarts.map Prod.fst).foldl
      (fun st key => (restartAndRecord exec st key now true).1) s

/-- The slice of a ConfigMap's `metadata` the engine reads. -/
structure CMMetadata where
  name : Option String := none
  labels : Option (List (String × String)) := none
  resourceVersion : Option String := none
deriving DecidableEq, Repr

/-- An observed ConfigMap object. -/
structure ConfigMap where
  metadata : Option CMMetadata := none
  data : Option (List (String × Option String)) := none
deriving DecidableEq, Repr

/-- `_has_meaningful_data_change`: returns the decision and the state with the
refreshed `_last_data_hash` baseline (the side effect always happens). -/
def hasMeaningfulDataChange (s : EngineState) (key : EngineKey) (eventType : String)
    (cm : ConfigMap) : Bool × EngineState :=
  let currentHash := hashData cm.data
  let previousHash := lookupA s.lastDataHash key
  let s1 := { s with lastDataHash := insertA s.lastDataHash key currentHash }
  match previousHash with
  | none => if eventType = "ADDED" then (false, s1) else (true, s1)
  | some p => if p = currentHash then (false, s1) else (true, s1)

/-- `handle_configmap_event`: filters, hash comparison, debounce decision and
immediate restart, returning the engine state and the optional result. -/
def handleConfigmapEvent (exec : EngineKey → RestartResult) (cfg : ReloaderConfig)
    (s : EngineState) (eventType : String) (cm : ConfigMap) (now : ℚ) :
    EngineState × Option RestartResult :=
  if eventType ≠ "ADDED" ∧ eventType ≠ "MODIFIED" then (s, none)
  else
    match cm.metadata with
    | none => (s, none)
    | some md =>
      let labels := md.labels.getD []
      if ¬ matchesAppLabels cfg labels then (s, none)
      else
        match lookupA labels "env" with
        | none => (s, none)
        | some env =>
          if env = "" then (s, none)
          else
            match md.name with
            | none => (s, none)
            | some nm =>
              if nm = "" then (s, none)
              else
                let key : EngineKey := (env, nm)
                let step := hasMeaningfulDataChange s key eventType cm
                if ¬ step.1 then (step.2, none)
                else
                  let remaining := debounceRemaining cfg step.2 key now
                  if remaining > 0 then
                    (schedulePendingRestart step.2 key now remaining true, none)
                  else
                    let s2 :=
                      { step.2 with
                        pendingRestarts := eraseA step.2.pendingRestarts key,
                        pendingRetryAttempts := eraseA step.2.pendingRetryAttempts key }
                    let out := restartAndRecord exec s2 key now false
                    (out.1, some out.2)

/-- One iteration of the loop body of `_sync_cache_from_list`, returning the
new state and the keys restarted immediately (`[]` or `[key]`). -/
def syncCacheItem (exec : EngineKey → RestartResult) (cfg : ReloaderConfig)
    (s : EngineState) (cm : ConfigMap) (restartOnChange : Bool) (now : ℚ) :
    EngineState × List EngineKey :=
  match cm.metadata with
  | none => (s, [])
  | some md =>
    let labels := md.labels.getD []
    if ¬ matchesAppLabels cfg labels then (s, [])
    else
      match lookupA labels "env", md.name with
      | some env, some nm =>
        if env = "" ∨ nm = "" then (s, [])
        else
          let key : EngineKey := (env, nm)
          let currentHash := hashData cm.data
          let previousHash := lookupA s.lastDataHash key
          let s1 := { s with lastDataHash := insertA s.lastDataHash key currentHash }
          if ¬ restartOnChange then (s1, [])
          else if previousHash = none ∨ previousHash = some currentHash then (s1, [])
          else
            let remaining := debounceRemaining cfg s1 key now
            if remaining > 0 then
              (schedulePendingRestart s1 key now remaining true, [])
            else ((restartAndRecord exec s1 key now false).1, [key])
      | _, _ => (s, [])

/-- `_sync_cache_from_list`: fold `syncCacheItem` over the listing. -/
def syncCacheFromList (exec : EngineKey → RestartResult) (cfg : ReloaderConfig)
    (s : EngineState) (cms : List ConfigMap) (restartOnChange : Bool) (now : ℚ) :
    EngineState × List EngineKey :=
  cms.foldl
    (fun acc cm =>
      let out := syncCacheItem exec cfg acc.1 cm restartOnChange now
      (out.1, acc.2 ++ out.2))
    (s, [])

/-! ## The watch loop of `run_forever` (post-startup phase)

Each pass through `while not self._should_stop(stop)` is one `WatchIter`: what
the opened watch stream produced.  The `time.monotonic()` readings within one
pass are modelled as that pass's instant; exhausting the iteration list models
the stop signal being observed, which leads to the shutdown flush. -/

/-- Outcome of one opened watch stream. -/
inductive WatchIter where
  /-- The stream yielded these events and then ended cleanly (timeout). -/
  | events : List (String × ConfigMap) → WatchIter
  /-- The watch raised `ApiException` with this status (≠ 410). -/
  | apiError : Nat → WatchIter
  /-- The watch raised 410 Gone; the payload is the re-list outcome
  (`Except status configmaps`). -/
  | historyGone : Except Nat (List ConfigMap) → WatchIter

/-- How the watch phase of `run_forever` returned. -/
inductive WatchExit where
  /-- Stop requested: pending restarts force-flushed, then `ready` cleared. -/
  | stopped
  /-- 401/403: `ready` cleared and the loop returned immediately, no flush. -/
  | authExit
deriving DecidableEq, Repr

/-- The per-event body of the stream loop: `handle_configmap_event` then
`_drain_pending_restarts`. -/
def processEvents (exec : EngineKey → RestartResult) (cfg : ReloaderConfig)
    (s : EngineState) (evs : List (String × ConfigMap)) (now : ℚ) : EngineState :=
  evs.foldl
    (fun st ev => drainPendingRestarts exec (handleConfigmapEvent exec cfg st ev.1 ev.2 now).1 now)
    s

/-- The watch phase of `run_forever` (everything after the successful initial
list), driven by the stream outcomes; `tEnd` is the instant of the shutdown
flush. -/
def runWatchPhase (exec : EngineKey → RestartResult) (cfg : ReloaderConfig) (tEnd : ℚ) :
    List (WatchIter × ℚ) → EngineState → EngineState × WatchExit
  | [], s =>
    ({ flushPendingRestartsOnShutdown exec s tEnd with ready := false }, .stopped)
  | (iter, now) :: rest, s =>
    let s1 := drainPendingRestarts exec s now
    match iter with
    | .events evs =>
      let s2 := processEvents exec cfg s1 evs now
      runWatchPhase exec cfg tEnd rest (drainPendingRestarts exec s2 now)
    | .apiError status =>
      if status = 401 ∨ status = 403 then ({ s1 with ready := false }, .authExit)
      else runWatchPhase exec cfg tEnd rest s1
    | .historyGone relist =>
      match relist with
      | .ok cms =>
        runWatchPhase exec cfg tEnd rest (syncCacheFromList exec cfg s1 cms true now).1
      | .error status =>
        if status = 401 ∨ status = 403 then ({ s1 with ready := false }, .authExit)
        else runWatchPhase exec cfg tEnd rest s1

/-! ## Restart executor (`_restart_deployments_for_env` / `patch_deployment_restart`)

The deployment listing is the `listResult` argument (`none` models a list
`ApiException`); per-deployment patch outcomes come from the `patchOk` oracle. -/

/-- The slice of a Deployment the executor reads and writes: its name and the
pod template annotations (`none` values model annotations set to `None`). -/
structure Deployment where
  name : Option String := none
  templateAnnotations : Option (List (String × Option String)) := none
deriving DecidableEq, Repr

/-- `_deployment_template_annotations`: normalise to string values. -/
def deploymentTemplateAnnotations (d : Deployment) : List (String × String) :=
  (d.templateAnnotations.getD []).map (fun kv => (kv.1, kv.2.getD ""))

/-- `patch_deployment_restart` (`kube.py`): strategic-merge the rollout
annotation plus any extra annotations into the pod template, preserving
unmentioned keys. -/
def patchDeploymentRestart (d : Deployment) (annotationKey timestamp : String)
    (extraAnnotations : Option (List (String × String))) : Deployment :=
  let patchList :=
    (extraAnnotations.getD []).foldl (fun acc kv => insertA acc kv.1 kv.2)
      [(annotationKey, timestamp)]
  let merged :=
    patchList.foldl (fun acc kv => insertA acc kv.1 (some kv.2))
      (d.templateAnnotations.getD [])
  { d with templateAnnotations := some merged }

/-- What happened to one deployment in the executor loop. -/
inductive DeployOutcome where
  /-- Skipped: already carries the current config hash. -/
  | skipped
  /-- Patched successfully. -/
  | patched
  /-- Counted into `failed` (missing or empty name, or patch error). -/
  | failedOne
deriving DecidableEq, Repr

/-- The per-deployment body of the `_restart_deployments_for_env` loop.
The source guards with Python truthiness — `if not deployment_name` — so both
a missing name (`none`) and an empty-string name count into `failed`. -/
def restartStep (patchOk : String → Bool) (rolloutKey hashKey : String)
    (configHash : Option String) (timestamp : String) (d : Deployment) :
    Deployment × DeployOutcome :=
  match d.name with
  | none => (d, .failedOne)
  | some deploymentName =>
    if deploymentName = "" then (d, .failedOne)
    else
      let skip :=
        match configHash with
        | some h => decide (lookupA (deploymentTemplateAnnotations d) hashKey = some h)
        | none => false
      if skip then (d, .skipped)
      else if patchOk deploymentName then
        (patchDeploymentRestart d rolloutKey timestamp
          (configHash.map (fun h => [(hashKey, h)])), .patched)
      else (d, .failedOne)

/-- `_restart_deployments_for_env`: list (given), compute hash annotation,
loop over deployments; returns the `RestartResult` and the deployments as the
cluster now holds them. -/
def restartDeploymentsForEnv (patchOk : String → Bool) (rolloutKey : String)
    (lastDataHash : List (EngineKey × String)) (env configMapName timestamp : String)
    (listResult : Option (List Deployment)) : RestartResult × List Deployment :=
  match listResult with
  | none =>
    ({ environment := env, matchedDeployments := 0, restarted := 0, failed := 1 }, [])
  | some items =>
    let configHash := lookupA lastDataHash (env, configMapName)
    let hashKey := configHashAnnotationKey rolloutKey configMapName
    let steps := items.map (restartStep patchOk rolloutKey hashKey configHash timestamp)
    ({ environment := env,
       matchedDeployments := items.length,
       restarted := (steps.filter (fun p => decide (p.2 = .patched))).length,
       failed := (steps.filter (fun p => decide (p.2 = .failedOne))).length },
     steps.map Prod.fst)

/-! ## Claim C1 — takeover after a clean lease release -/

/-- C1: the claim says that after the leader shuts down and releases the Lease
(clearing `holder_identity`, leaving `renew_time` at its last renewal), the
other replica's very next acquire-or-renew cycle at any `now` with
`now − renew_time < lease_duration` acquires leadership immediately.  The code
does the opposite: `_try_acquire_or_renew` tests `now − renew_time < duration`
for *any* non-self holder, including a cleared (`None`) holder, so the released
Lease is still treated as live and the cycle returns not-acquired until the
full lease duration has expired — contradicting `_release_lease`'s own stated
purpose ("to allow immediate takeover").  Evaluated here at a concrete failing
input: replica A acquires at instant 0, releases; replica B's next cycle at
instant 1 (with 1 − 0 < 15) does not acquire, and only acquires at instant 15. -/
theorem releaseLease_takeover_not_immediate :
    (releaseLease "replica-a" (createLease ⟨"replica-a", 15⟩ 0).2 =
      some { spec := some { holderIdentity := none, leaseDurationSeconds := some 15,
                            acquireTime := some 0, renewTime := some 0 } }) ∧
    (tryAcquireOrRenew ⟨"replica-b", 15⟩ 1
        (releaseLease "replica-a" (createLease ⟨"replica-a", 15⟩ 0).2)).1 = false ∧
    ((1 : Int) - 0 < 15) ∧
    (tryAcquireOrRenew ⟨"replica-b", 15⟩ 15
        (releaseLease "replica-a" (createLease ⟨"replica-a", 15⟩ 0).2)).1 = true := by
  decide

theorem lookupA_map_value {κ α β : Type} [DecidableEq κ] (f : α → β) (l : List (κ × α))
    (k : κ) : lookupA (l.map (fun kv => (kv.1, f kv.2))) k = (lookupA l k).map f := by
  induction l with
  | nil => simp [lookupA]
  | cons p t ih =>
    obtain ⟨k₀, v₀⟩ := p
    by_cases h : k₀ = k <;> simp [lookupA, h, ih]

/-! ## Claim C4 — pending-map coalescing invariant -/

/-- C4: for every key K the pending map holds at most one deadline (one
binding per key is preserved by every pending-map mutation), and an update
through the debounce/coalescing path (`_schedule_pending_restart` with
`reset_retry_attempt=True`) stores `max(existing deadline, now + remaining)`
while clearing `retry_attempt[K]`; in particular the stored deadline never
moves earlier. -/
theorem schedulePendingRestart_coalesces (s : EngineState) (key : EngineKey)
    (now remaining : ℚ) (hnodup : (keysA s.pendingRestarts).Nodup) :
    lookupA (schedulePendingRestart s key now remaining true).pendingRestarts key =
      some (max ((lookupA s.pendingRestarts key).getD (now + remaining)) (now + remaining)) ∧
    lookupA (schedulePendingRestart s key now remaining true).pendingRetryAttempts key = none ∧
    (keysA (schedulePendingRestart s key now remaining true).pendingRestarts).Nodup ∧
    (∀ d₀ : ℚ, lookupA s.pendingRestarts key = some d₀ →
      ∃ d₁ : ℚ,
        lookupA (schedulePendingRestart s key now remaining true).pendingRestarts key = some d₁ ∧
        d₀ ≤ d₁) ∧
    (keysA (markRestartExecuted s key now).pendingRestarts).Nodup ∧
    (keysA (scheduleRetry s key now).pendingRestarts).Nodup := by
  unfold schedulePendingRestart markRestartExecuted scheduleRetry
  cases hl : lookupA s.pendingRestarts key with
  | none =>
    refine ⟨by simp [hl], by simp [hl], by simp [hl, keysA_insertA_nodup _ _ _ hnodup], ?_, ?_, ?_⟩
    · intro d₀ h₀
      simp at h₀
    · exact keysA_eraseA_nodup _ _ hnodup
    · exact keysA_insertA_nodup _ _ _ hnodup
  | some d =>
    by_cases hgt : now + remaining > d
    · have hmax : max d (now + remaining) = now + remaining := max_eq_right hgt.le
      refine ⟨by simp [hl, hgt, hmax], by simp [hl, hgt],
        by simp [hl, hgt, keysA_insertA_nodup _ _ _ hnodup], ?_, ?_, ?_⟩
      · intro d₀ h₀
        have hd : d₀ = d := (Option.some_injective _ h₀).symm
        exact ⟨now + remaining, by simp [hl, hgt], hd ▸ hgt.le⟩
      · exact keysA_eraseA_nodup _ _ hnodup
      · exact keysA_insertA_nodup _ _ _ hnodup
    · have hmax : max d (now + remaining) = d := max_eq_left (not_lt.mp hgt)
      refine ⟨by simp [hl, hgt, hmax], by simp [hl, hgt],
        by simpa [hl, hgt] using hnodup, ?_, ?_, ?_⟩
      · intro d₀ h₀
        have hd : d₀ = d := (Option.some_injective _ h₀).symm
        exact ⟨d, by simp [hl, hgt], hd.le⟩
      · exact keysA_eraseA_nodup _ _ hnodup
      · exact keysA_insertA_nodup _ _ _ hnodup

/-- Witness for C4 at a concrete state: a pending deadline of 10 coalesced
with `now + remaining = 5 + 3` stays at 10 and the retry counter is cleared. -/
theorem schedulePendingRestart_coalesces_witness :
    lookupA (schedulePendingRestart
        { pendingRestarts := [(("test", "cm"), (10 : ℚ))],
          pendingRetryAttempts := [(("test", "cm"), 2)] }
        ("test", "cm") 5 3 true).pendingRestarts ("test", "cm") = some 10 ∧
    lookupA (schedulePendingRestart
        { pendingRestarts := [(("test", "cm"), (10 : ℚ))],
          pendingRetryAttempts := [(("test", "cm"), 2)] }
        ("test", "cm") 5 3 true).pendingRetryAttempts ("test", "cm") = none := by
  have h := schedulePendingRestart_coalesces
    { pendingRestarts := [(("test", "cm"), (10 : ℚ))],
      pendingRetryAttempts := [(("test", "cm"), 2)] }
    ("test", "cm") 5 3 (by decide)
  refine ⟨?_, h.2.1⟩
  have h1 := h.1
  rw [h1]
  norm_num [lookupA]

/-! ## Claim C5 — retry backoff and success bookkeeping -/

/-- C5: a non-forced executor call with `failed > 0` increments
`retry_attempt[K]` to some `n`, sets `pending[K] = now + min(30, 2^(n−1))`
and leaves `last_restart` unchanged; a call with `failed == 0` sets
`last_restart[K] = now` and removes K from both `pending` and
`retry_attempt`. -/
theorem restartAndRecord_retry_and_success (exec : EngineKey → RestartResult)
    (s : EngineState) (key : EngineKey) (now : ℚ) :
    ((exec key).failed = 0 →
      lookupA (restartAndRecord exec s key now false).1.lastRestart key = some now ∧
      lookupA (restartAndRecord exec s key now false).1.pendingRestarts key = none ∧
      lookupA (restartAndRecord exec s key now false).1.pendingRetryAttempts key = none) ∧
    ((exec key).failed ≠ 0 →
      lookupA (restartAndRecord exec s key now false).1.pendingRetryAttempts key =
        some ((lookupA s.pendingRetryAttempts key).getD 0 + 1) ∧
      lookupA (restartAndRecord exec s key now false).1.pendingRestarts key =
        some (now + min 30 ((2 : ℚ) ^ ((lookupA s.pendingRetryAttempts key).getD 0 + 1 - 1))) ∧
      (restartAndRecord exec s key now false).1.lastRestart = s.lastRestart) := by
  constructor
  · intro hz
    simp [restartAndRecord, hz, markRestartExecuted]
  · intro hnz
    simp [restartAndRecord, hnz, scheduleRetry]

/-- Witness for C5: an executor that always fails once schedules retry
attempt 1 due at `now + 1`; one that succeeds clears the queue. -/
theorem restartAndRecord_retry_and_success_witness :
    lookupA (restartAndRecord (fun _ => ⟨"test", 1, 0, 1⟩) {} ("test", "cm") 7 false).1.pendingRetryAttempts
        ("test", "cm") = some 1 ∧
    lookupA (restartAndRecord (fun _ => ⟨"test", 1, 0, 1⟩) {} ("test", "cm") 7 false).1.pendingRestarts
        ("test", "cm") = some 8 ∧
    lookupA (restartAndRecord (fun _ => ⟨"test", 1, 1, 0⟩) {} ("test", "cm") 7 false).1.lastRestart
        ("test", "cm") = some 7 := by
  have hf := (restartAndRecord_retry_and_success (fun _ => ⟨"test", 1, 0, 1⟩) {} ("test", "cm") 7).2
    (by decide)
  have hs := (restartAndRecord_retry_and_success (fun _ => ⟨"test", 1, 1, 0⟩) {} ("test", "cm") 7).1
    (by decide)
  refine ⟨hf.1.trans (by norm_num [lookupA]), ?_, hs.1⟩
  have h2 := hf.2.1
  rw [h2]
  norm_num [lookupA]

/-! ## Claim C3 — baseline seeding and unchanged-hash suppression -/

/-- C3: for an event that passes `handle_configmap_event`'s filters (type
`ADDED`/`MODIFIED`, matching labels, non-empty `env` label and name):
a first-ever `ADDED` only seeds `last_hash[K]` and neither executes nor
schedules a restart; a first-ever `MODIFIED` is treated as a real change and
proceeds to the debounce decision (deferring or restarting immediately); and
an event whose normalised-data hash equals `last_hash[K]` only refreshes the
baseline and neither executes nor schedules a restart. -/
theorem handleConfigmapEvent_baseline_and_unchanged
    (exec : EngineKey → RestartResult) (cfg : ReloaderConfig) (s : EngineState)
    (eventType : String) (cm : ConfigMap) (now : ℚ) (md : CMMetadata)
    (env nm : String)
    (hmd : cm.metadata = some md)
    (hlab : matchesAppLabels cfg (md.labels.getD []) = true)
    (henv : lookupA (md.labels.getD []) "env" = some env) (henv2 : env ≠ "")
    (hnm : md.name = some nm) (hnm2 : nm ≠ "") :
    (lookupA s.lastDataHash (env, nm) = none → eventType = "ADDED" →
      handleConfigmapEvent exec cfg s eventType cm now =
        ({ s with lastDataHash := insertA s.lastDataHash (env, nm) (hashData cm.data) },
          none)) ∧
    (lookupA s.lastDataHash (env, nm) = none → eventType = "MODIFIED" →
      (0 < debounceRemaining cfg
          { s with lastDataHash := insertA s.lastDataHash (env, nm) (hashData cm.data) }
          (env, nm) now →
        handleConfigmapEvent exec cfg s eventType cm now =
          (schedulePendingRestart
            { s with lastDataHash := insertA s.lastDataHash (env, nm) (hashData cm.data) }
            (env, nm) now
            (debounceRemaining cfg
              { s with lastDataHash := insertA s.lastDataHash (env, nm) (hashData cm.data) }
              (env, nm) now)
            true, none)) ∧
      (¬ 0 < debounceRemaining cfg
          { s with lastDataHash := insertA s.lastDataHash (env, nm) (hashData cm.data) }
          (env, nm) now →
        (handleConfigmapEvent exec cfg s eventType cm now).2 =
          some (exec (env, nm)))) ∧
    (lookupA s.lastDataHash (env, nm) = some (hashData cm.data) →
      eventType = "ADDED" ∨ eventType = "MODIFIED" →
      handleConfigmapEvent exec cfg s eventType cm now =
        ({ s with lastDataHash := insertA s.lastDataHash (env, nm) (hashData cm.data) },
          none)) := by
  refine ⟨?_, ?_, ?_⟩
  · intro h0 hA
    subst hA
    simp [handleConfigmapEvent, hmd, hlab, henv, henv2, hnm, hnm2,
      hasMeaningfulDataChange, h0]
  · intro h0 hM
    subst hM
    constructor
    · intro hdb
      simp [handleConfigmapEvent, hmd, hlab, henv, henv2, hnm, hnm2,
        hasMeaningfulDataChange, h0, hdb]
    · intro hdb
      simp [handleConfigmapEvent, hmd, hlab, henv, henv2, hnm, hnm2,
        hasMeaningfulDataChange, h0, hdb, restartAndRecord]
      by_cases hz : (exec (env, nm)).failed = 0 <;> simp [hz]
  · intro hsame hty
    rcases hty with hA | hM
    · subst hA
      simp [handleConfigmapEvent, hmd, hlab, henv, henv2, hnm, hnm2,
        hasMeaningfulDataChange, hsame]
    · subst hM
      simp [handleConfigmapEvent, hmd, hlab, henv, henv2, hnm, hnm2,
        hasMeaningfulDataChange, hsame]

/-- Witness for C3: a first-ever `ADDED` event for a matching ConfigMap on the
empty engine state returns no restart result. -/
theorem handleConfigmapEvent_baseline_witness :
    (handleConfigmapEvent (fun _ => ⟨"test", 1, 1, 0⟩)
        ⟨[("app", "helloworld")], "shipshape.io/restartedAt", 5⟩ {} "ADDED"
        ⟨some ⟨some "helloworld-config", some [("app", "helloworld"), ("env", "test")], none⟩,
         some [("MESSAGE", some "hello")]⟩ 0).2 = none := by
  have h := (handleConfigmapEvent_baseline_and_unchanged
      (fun _ => ⟨"test", 1, 1, 0⟩) ⟨[("app", "helloworld")], "shipshape.io/restartedAt", 5⟩ {}
      "ADDED"
      ⟨some ⟨some "helloworld-config", some [("app", "helloworld"), ("env", "test")], none⟩,
       some [("MESSAGE", some "hello")]⟩ 0
      ⟨some "helloworld-config", some [("app", "helloworld"), ("env", "test")], none⟩
      "test" "helloworld-config" rfl (by decide) (by decide) (by decide) rfl
      (by decide)).1 rfl rfl
  rw [h]

/-! ## Claim C7 — re-list sync with restart-on-change semantics -/

/-- C7: during the re-list after a 410 (`_sync_cache_from_list` with
`restart_on_change=True`), a listed matching ConfigMap whose current data hash
equals its cached hash — or that has no cached hash — produces zero restarts
(only the baseline refresh); one whose hash differs from the cached hash
produces exactly one restart for its key: executed immediately when outside
the debounce window, otherwise scheduled once as a pending entry. -/
theorem syncCacheItem_restart_on_change
    (exec : EngineKey → RestartResult) (cfg : ReloaderConfig) (s : EngineState)
    (cm : ConfigMap) (now : ℚ) (md : CMMetadata) (env nm : String)
    (hmd : cm.metadata = some md)
    (hlab : matchesAppLabels cfg (md.labels.getD []) = true)
    (henv : lookupA (md.labels.getD []) "env" = some env) (henv2 : env ≠ "")
    (hnm : md.name = some nm) (hnm2 : nm ≠ "") :
    ((lookupA s.lastDataHash (env, nm) = none ∨
      lookupA s.lastDataHash (env, nm) = some (hashData cm.data)) →
      syncCacheItem exec cfg s cm true now =
        ({ s with lastDataHash := insertA s.lastDataHash (env, nm) (hashData cm.data) },
          [])) ∧
    (∀ p : String, lookupA s.lastDataHash (env, nm) = some p → p ≠ hashData cm.data →
      (0 < debounceRemaining cfg
          { s with lastDataHash := insertA s.lastDataHash (env, nm) (hashData cm.data) }
          (env, nm) now →
        syncCacheItem exec cfg s cm true now =
          (schedulePendingRestart
            { s with lastDataHash := insertA s.lastDataHash (env, nm) (hashData cm.data) }
            (env, nm) now
            (debounceRemaining cfg
              { s with lastDataHash := insertA s.lastDataHash (env, nm) (hashData cm.data) }
              (env, nm) now)
            true, [])) ∧
      (¬ 0 < debounceRemaining cfg
          { s with lastDataHash := insertA s.lastDataHash (env, nm) (hashData cm.data) }
          (env, nm) now →
        syncCacheItem exec cfg s cm true now =
          ((restartAndRecord exec
            { s with lastDataHash := insertA s.lastDataHash (env, nm) (hashData cm.data) }
            (env, nm) now false).1, [(env, nm)]))) := by
  constructor
  · intro hcase
    rcases hcase with h0 | hsame
    · simp [syncCacheItem, hmd, hlab, henv, henv2, hnm, hnm2, h0]
    · simp [syncCacheItem, hmd, hlab, henv, henv2, hnm, hnm2, hsame]
  · intro p hp hne
    constructor
    · intro hdb
      simp [syncCacheItem, hmd, hlab, henv, henv2, hnm, hnm2, hp, hne, hdb]
    · intro hdb
      simp [syncCacheItem, hmd, hlab, henv, henv2, hnm, hnm2, hp, hne, hdb]

/-- Witness for C7: after a re-list whose snapshot carries the same data as
the cached baseline, the matching ConfigMap produces zero restarts. -/
theorem syncCacheItem_restart_on_change_witness :
    (syncCacheItem (fun _ => ⟨"test", 1, 1, 0⟩)
        ⟨[("app", "helloworld")], "shipshape.io/restartedAt", 5⟩
        { lastDataHash := [(("test", "helloworld-config"),
            hashData (some [("MESSAGE", some "hello")]))] }
        ⟨some ⟨some "helloworld-config", some [("app", "helloworld"), ("env", "test")], none⟩,
         some [("MESSAGE", some "hello")]⟩ true 0).2 = [] := by
  have h := (syncCacheItem_restart_on_change
      (fun _ => ⟨"test", 1, 1, 0⟩) ⟨[("app", "helloworld")], "shipshape.io/restartedAt", 5⟩
      { lastDataHash := [(("test", "helloworld-config"),
          hashData (some [("MESSAGE", some "hello")]))] }
      ⟨some ⟨some "helloworld-config", some [("app", "helloworld"), ("env", "test")], none⟩,
       some [("MESSAGE", some "hello")]⟩ 0
      ⟨some "helloworld-config", some [("app", "helloworld"), ("env", "test")], none⟩
      "test" "helloworld-config" rfl (by decide) (by decide) (by decide) rfl
      (by decide)).1 (Or.inr (by simp [lookupA]))
  rw [h]

/-! ## Claims C6 and C10 — restart executor idempotence and the no-hash path -/

theorem restartStep_name (patchOk : String → Bool) (rolloutKey hashKey : String)
    (configHash : Option String) (timestamp : String) (d : Deployment) :
    (restartStep patchOk rolloutKey hashKey configHash timestamp d).1.name = d.name := by
  cases hn : d.name with
  | none => simp [restartStep, hn]
  | some nm =>
    by_cases hne : nm = ""
    · simp [restartStep, hn, hne]
    · simp only [restartStep, hn]
      rw [if_neg hne]
      cases configHash with
      | none =>
        by_cases hp : patchOk nm <;> simp [hp, patchDeploymentRestart, hn]
      | some h =>
        by_cases hsk : lookupA (deploymentTemplateAnnotations d) hashKey = some h
        · simp [hsk, hn]
        · by_cases hp : patchOk nm <;> simp [hsk, hp, patchDeploymentRestart, hn]

/-- After patching with `extra_annotations = {hashKey: h}`, the normalised
template annotations carry `hashKey ↦ h`. -/
theorem lookup_patch_hash (d : Deployment) (rolloutKey timestamp hashKey h : String) :
    lookupA (deploymentTemplateAnnotations
      (patchDeploymentRestart d rolloutKey timestamp (some [(hashKey, h)]))) hashKey =
      some h := by
  have hmap := fun (l : List (String × Option String)) (k : String) =>
    lookupA_map_value (fun v : Option String => v.getD "") l k
  unfold patchDeploymentRestart deploymentTemplateAnnotations
  by_cases hk : rolloutKey = hashKey
  · subst hk
    simp [insertA, hmap]
  · simp [insertA, hk, hmap]

/-- After one executor pass with a known config hash, every deployment with a
non-empty name carries the hash annotation. -/
theorem restartStep_establishes_hash (patchOk : String → Bool)
    (rolloutKey hashKey timestamp : String) (h : String) (d : Deployment) (nm : String)
    (hn : d.name = some nm) (hne : nm ≠ "") (hp : patchOk nm = true) :
    lookupA (deploymentTemplateAnnotations
      (restartStep patchOk rolloutKey hashKey (some h) timestamp d).1) hashKey = some h := by
  simp only [restartStep, hn]
  rw [if_neg hne]
  by_cases hsk : lookupA (deploymentTemplateAnnotations d) hashKey = some h
  · simp [hsk]
  · simpa [hsk, hp] using lookup_patch_hash d rolloutKey timestamp hashKey h

/-- A non-empty-named deployment already carrying the hash annotation is
skipped untouched. -/
theorem restartStep_skips (patchOk : String → Bool) (rolloutKey hashKey : String)
    (h timestamp : String) (d : Deployment) (nm : String) (hn : d.name = some nm)
    (hne : nm ≠ "")
    (hsk : lookupA (deploymentTemplateAnnotations d) hashKey = some h) :
    restartStep patchOk rolloutKey hashKey (some h) timestamp d = (d, .skipped) := by
  simp [restartStep, hn, hne, hsk]

/-- One fixed-point step: applying the executor loop body a second time to the
output of the first leaves the deployment unchanged and never patches (a
deployment with a falsy name fails again; any other is skipped). -/
theorem restartStep_second_pass (patchOk : String → Bool) (rolloutKey hashKey : String)
    (h ts1 ts2 : String) (hpatch : ∀ nm, patchOk nm = true) (d : Deployment) :
    restartStep patchOk rolloutKey hashKey (some h) ts2
      ((restartStep patchOk rolloutKey hashKey (some h) ts1 d).1) =
      ((restartStep patchOk rolloutKey hashKey (some h) ts1 d).1,
        if d.name = none ∨ d.name = some "" then .failedOne else .skipped) := by
  cases hn : d.name with
  | none =>
    have h1 : (restartStep patchOk rolloutKey hashKey (some h) ts1 d).1 = d := by
      simp [restartStep, hn]
    rw [h1]
    simp [restartStep, hn]
  | some nm =>
    by_cases hne : nm = ""
    · subst hne
      have h1 : (restartStep patchOk rolloutKey hashKey (some h) ts1 d).1 = d := by
        simp [restartStep, hn]
      rw [h1]
      simp [restartStep, hn]
    · have hname := restartStep_name patchOk rolloutKey hashKey (some h) ts1 d
      rw [hn] at hname
      have hha := restartStep_establishes_hash patchOk rolloutKey hashKey ts1 h d nm hn hne
        (hpatch nm)
      have hskip := restartStep_skips patchOk rolloutKey hashKey h ts2
        ((restartStep patchOk rolloutKey hashKey (some h) ts1 d).1) nm hname hne hha
      rw [hskip]
      simp [hn, hne]

/-- C6: with `last_hash[K]` present and patches succeeding, running the
executor twice in a row patches each deployment at most once — the second pass
patches nothing and leaves every deployment exactly as the first pass left it. -/
theorem restartDeploymentsForEnv_idempotent (patchOk : String → Bool)
    (rolloutKey : String) (lastDataHash : List (EngineKey × String))
    (env configMapName ts1 ts2 h : String) (deps : List Deployment)
    (hhash : lookupA lastDataHash (env, configMapName) = some h)
    (hpatch : ∀ nm, patchOk nm = true) :
    (restartDeploymentsForEnv patchOk rolloutKey lastDataHash env configMapName ts2
        (some (restartDeploymentsForEnv patchOk rolloutKey lastDataHash env configMapName ts1
          (some deps)).2)).2 =
      (restartDeploymentsForEnv patchOk rolloutKey lastDataHash env configMapName ts1
        (some deps)).2 ∧
    (restartDeploymentsForEnv patchOk rolloutKey lastDataHash env configMapName ts2
        (some (restartDeploymentsForEnv patchOk rolloutKey lastDataHash env configMapName ts1
          (some deps)).2)).1.restarted = 0 := by
  set hashKey := configHashAnnotationKey rolloutKey configMapName with hk
  have hsteps2 :
      (((deps.map (restartStep patchOk rolloutKey hashKey (some h) ts1)).map
          Prod.fst).map (restartStep patchOk rolloutKey hashKey (some h) ts2)) =
      deps.map (fun d =>
        ((restartStep patchOk rolloutKey hashKey (some h) ts1 d).1,
          if d.name = none ∨ d.name = some "" then DeployOutcome.failedOne
          else DeployOutcome.skipped)) := by
    rw [List.map_map, List.map_map]
    refine List.map_congr_left ?_
    intro d _
    simp only [Function.comp_apply]
    exact restartStep_second_pass patchOk rolloutKey hashKey h ts1 ts2 hpatch d
  simp only [restartDeploymentsForEnv, hhash, ← hk]
  constructor
  · rw [hsteps2, List.map_map, List.map_map]
    refine List.map_congr_left ?_
    intro d _
    simp
  · rw [hsteps2]
    have hnil : (deps.map (fun d =>
        ((restartStep patchOk rolloutKey hashKey (some h) ts1 d).1,
          if d.name = none ∨ d.name = some "" then DeployOutcome.failedOne
          else DeployOutcome.skipped))).filter
        (fun p => decide (p.2 = DeployOutcome.patched)) = [] := by
      rw [List.filter_eq_nil_iff]
      intro p hp
      rw [List.mem_map] at hp
      obtain ⟨d, _, hd⟩ := hp
      by_cases hn : d.name = none ∨ d.name = some "" <;> simp [hn] at hd <;> simp [← hd]
    rw [hnil]
    rfl

/-- Witness for C6: a two-deployment listing is patched by the first pass and
left untouched (zero restarts) by the second. -/
theorem restartDeploymentsForEnv_idempotent_witness :
    (restartDeploymentsForEnv (fun _ => true) "shipshape.io/restartedAt"
        [(("test", "cm"), "abc123")] "test" "cm" "2024-01-15T08:30:01Z"
        (some (restartDeploymentsForEnv (fun _ => true) "shipshape.io/restartedAt"
          [(("test", "cm"), "abc123")] "test" "cm" "2024-01-15T08:30:00Z"
          (some [⟨some "helloworld", none⟩, ⟨some "helloworld-canary", none⟩])).2)).1.restarted =
      0 := by
  exact (restartDeploymentsForEnv_idempotent (fun _ => true) "shipshape.io/restartedAt"
    [(("test", "cm"), "abc123")] "test" "cm" "2024-01-15T08:30:00Z" "2024-01-15T08:30:01Z"
    "abc123" [⟨some "helloworld", none⟩, ⟨some "helloworld-canary", none⟩]
    (by simp [lookupA]) (fun _ => rfl)).2

/-- C10: with no cached digest for the key, the executor performs no
already-up-to-date skip: every listed deployment with a (truthy) name is
patched with only the rollout-timestamp annotation (no hash annotation), and a
deployment lacking a usable `metadata.name` — missing *or* empty, per the
source's `if not deployment_name` truthiness guard — is counted into `failed`
and left unpatched. -/
theorem restartDeploymentsForEnv_no_hash (patchOk : String → Bool)
    (rolloutKey : String) (lastDataHash : List (EngineKey × String))
    (env configMapName ts : String) (deps : List Deployment)
    (hnone : lookupA lastDataHash (env, configMapName) = none)
    (hpatch : ∀ nm, patchOk nm = true) :
    restartDeploymentsForEnv patchOk rolloutKey lastDataHash env configMapName ts
        (some deps) =
      ({ environment := env,
         matchedDeployments := deps.length,
         restarted := (deps.filter
           (fun d => decide (¬ (d.name = none ∨ d.name = some "")))).length,
         failed := (deps.filter
           (fun d => decide (d.name = none ∨ d.name = some ""))).length },
       deps.map (fun d =>
         match d.name with
         | none => d
         | some nm =>
           if nm = "" then d
           else { d with templateAnnotations := some (insertA (d.templateAnnotations.getD []) rolloutKey (some ts)) })) := by
  have hstep : ∀ d : Deployment,
      restartStep patchOk rolloutKey (configHashAnnotationKey rolloutKey configMapName)
        none ts d =
        (match d.name with
         | none => (d, DeployOutcome.failedOne)
         | some nm =>
           if nm = "" then (d, DeployOutcome.failedOne)
           else
             ({ d with templateAnnotations := some (insertA (d.templateAnnotations.getD []) rolloutKey (some ts)) },
              DeployOutcome.patched)) := by
    intro d
    cases hn : d.name with
    | none => simp [restartStep, hn]
    | some nm =>
      by_cases hne : nm = ""
      · simp [restartStep, hn, hne]
      · simp [restartStep, hn, hne, hpatch nm, patchDeploymentRestart]
  simp only [restartDeploymentsForEnv, hnone]
  refine congrArg₂ Prod.mk ?_ ?_
  · have hr : ∀ d : Deployment,
        (decide ((restartStep patchOk rolloutKey
          (configHashAnnotationKey rolloutKey configMapName) none ts d).2 =
            DeployOutcome.patched)) =
          decide (¬ (d.name = none ∨ d.name = some "")) := by
      intro d
      rw [hstep d]
      cases hn : d.name with
      | none => simp
      | some nm => by_cases hne : nm = "" <;> simp [hne]
    have hf : ∀ d : Deployment,
        (decide ((restartStep patchOk rolloutKey
          (configHashAnnotationKey rolloutKey configMapName) none ts d).2 =
            DeployOutcome.failedOne)) =
          decide (d.name = none ∨ d.name = some "") := by
      intro d
      rw [hstep d]
      cases hn : d.name with
      | none => simp
      | some nm => by_cases hne : nm = "" <;> simp [hne]
    refine congrArg₂ (fun x y => RestartResult.mk env deps.length x y) ?_ ?_
    · rw [List.filter_map, List.length_map]
      congr 1
      refine List.filter_congr ?_
      intro d _
      exact hr d
    · rw [List.filter_map, List.length_map]
      congr 1
      refine List.filter_congr ?_
      intro d _
      exact hf d
  · rw [List.map_map]
    refine List.map_congr_left ?_
    intro d _
    simp only [Function.comp_apply, hstep d]
    cases hn : d.name with
    | none => simp
    | some nm => by_cases hne : nm = "" <;> simp [hne]

/-- Witness for C10: with an empty hash cache, a named deployment is patched
with the rollout annotation only, while a nameless one and an empty-named one
are counted as failed and left unpatched. -/
theorem restartDeploymentsForEnv_no_hash_witness :
    restartDeploymentsForEnv (fun _ => true) "shipshape.io/restartedAt" [] "test" "cm"
        "2024-01-15T08:30:00Z"
        (some [⟨some "helloworld", none⟩, ⟨none, none⟩, ⟨some "", none⟩]) =
      ({ environment := "test", matchedDeployments := 3, restarted := 1, failed := 2 },
       [⟨some "helloworld",
          some [("shipshape.io/restartedAt", some "2024-01-15T08:30:00Z")]⟩,
        ⟨none, none⟩, ⟨some "", none⟩]) := by
  have h := restartDeploymentsForEnv_no_hash (fun _ => true) "shipshape.io/restartedAt" []
    "test" "cm" "2024-01-15T08:30:00Z"
    [⟨some "helloworld", none⟩, ⟨none, none⟩, ⟨some "", none⟩]
    rfl (fun _ => rfl)
  rw [h]
  decide

/-! ## Claim C9 — fatal auth errors skip the shutdown flush -/

/-- Draining (a non-forced path) never records a dropped-restart event. -/
theorem drainPendingRestarts_dropped (exec : EngineKey → RestartResult)
    (s : EngineState) (now : ℚ) :
    (drainPendingRestarts exec s now).droppedRestartsTotal = s.droppedRestartsTotal := by
  unfold drainPendingRestarts
  generalize (s.pendingRestarts.filter fun p => decide (p.2 ≤ now)).map Prod.fst = ks
  induction ks generalizing s with
  | nil => rfl
  | cons k t ih =>
    simp only [List.foldl_cons]
    rw [ih]
    unfold restartAndRecord
    by_cases hz : (exec k).failed = 0 <;> simp [hz, markRestartExecuted, scheduleRetry]

/-- C9: when the watch stream — or the re-list performed after a 410 — raises
an API error with status 401 or 403, the watch phase clears the ready flag and
returns immediately: the shutdown force-flush is not invoked, the state is
exactly the post-drain state (so any still-pending keys are simply discarded,
with no restart attempt), and the dropped counter is not incremented. -/
theorem runWatchPhase_auth_exit (exec : EngineKey → RestartResult)
    (cfg : ReloaderConfig) (tEnd : ℚ) (rest : List (WatchIter × ℚ)) (s : EngineState)
    (now : ℚ) (status : Nat) (h : status = 401 ∨ status = 403) :
    runWatchPhase exec cfg tEnd ((WatchIter.apiError status, now) :: rest) s =
      ({ drainPendingRestarts exec s now with ready := false }, WatchExit.authExit) ∧
    runWatchPhase exec cfg tEnd
        ((WatchIter.historyGone (Except.error status), now) :: rest) s =
      ({ drainPendingRestarts exec s now with ready := false }, WatchExit.authExit) ∧
    (drainPendingRestarts exec s now).droppedRestartsTotal = s.droppedRestartsTotal := by
  refine ⟨?_, ?_, drainPendingRestarts_dropped exec s now⟩
  · simp only [runWatchPhase]
    rw [if_pos h]
  · simp only [runWatchPhase]
    rw [if_pos h]

/-- Witness for C9: a 401 from the watch with one not-yet-due pending restart
returns immediately with `ready` cleared, the pending intent still queued,
and no dropped-counter increment. -/
theorem runWatchPhase_auth_exit_witness :
    runWatchPhase (fun _ => ⟨"test", 1, 1, 0⟩) ⟨[("app", "helloworld")], "k", 5⟩ 99
        [(WatchIter.apiError 401, 50)]
        { pendingRestarts := [(("test", "cm"), (60 : ℚ))] } =
      ({ pendingRestarts := [(("test", "cm"), (60 : ℚ))], ready := false },
        WatchExit.authExit) := by
  have h := (runWatchPhase_auth_exit (fun _ => ⟨"test", 1, 1, 0⟩)
    ⟨[("app", "helloworld")], "k", 5⟩ 99 []
    { pendingRestarts := [(("test", "cm"), (60 : ℚ))] } 50 401 (Or.inl rfl)).1
  rw [h]
  decide

/-! ## Claim C8 — hash-annotation local name derivation -/

theorem sha256hex_data_length (s : String) : (sha256hex s).data.length = 64 := by
  unfold sha256hex hash8Hex wordHex8
  simp

theorem rstripChars_length_le (cs strip : List Char) :
    (rstripChars cs strip).length ≤ cs.length := by
  unfold rstripChars
  rw [List.length_reverse]
  calc (cs.reverse.dropWhile fun c => decide (c ∈ strip)).length
      ≤ cs.reverse.length := List.Sublist.length_le (List.dropWhile_sublist _)
    _ = cs.length := List.length_reverse cs

/-- The truncated stem of the over-63 branch: the normalised name cut to the
40 characters that fit (`63 - len("config-hash--") - 10`), right-stripped,
defaulting to `"configmap"`. -/
def trimmedStem (configMapName : String) : List Char :=
  let normalized := normalizedNameOf configMapName
  let trimmed0 := rstripChars (normalized.take (max 1 (63 - "config-hash--".length - 10))) ['-', '.']
  if trimmed0 = [] then "configmap".data else trimmed0

theorem trimmedStem_length (m : String) : (trimmedStem m).length ≤ 40 := by
  unfold trimmedStem
  by_cases h : rstripChars ((normalizedNameOf m).take (max 1 (63 - "config-hash--".length - 10))) ['-', '.'] = []
  · simp [h]
  · rw [if_neg h]
    calc (rstripChars ((normalizedNameOf m).take (max 1 (63 - "config-hash--".length - 10))) ['-', '.']).length
        ≤ ((normalizedNameOf m).take (max 1 (63 - "config-hash--".length - 10))).length :=
          rstripChars_length_le _ _
      _ ≤ max 1 (63 - "config-hash--".length - 10) := by
          rw [List.length_take]
          exact min_le_left _ _
      _ ≤ 40 := by decide

/-- On the over-63 branch, `configHashLocalName` is the trimmed stem plus the
10-hex-character SHA-256 suffix. -/
theorem configHashLocalName_long (m : String)
    (hgt : ("config-hash-".data ++ normalizedNameOf m).length > 63) :
    configHashLocalName m =
      "config-hash-".data ++ trimmedStem m ++ '-' :: (sha256hex m).data.take 10 := by
  have hsuf : ((sha256hex m).data.take 10).length = 10 := by
    rw [List.length_take, sha256hex_data_length]
    decide
  simp only [configHashLocalName, trimmedStem]
  rw [if_pos hgt, hsuf]

/-- C8 counterexample: the claim's slug replaces *every* out-of-class
character by `-`, but the source regex `[^A-Za-z0-9_.-]+` collapses each
maximal run into a single `-`; the two disagree at `"a!!b"`. -/
theorem configHashLocalName_not_per_char_slug :
    configHashLocalName "a!!b" = "config-hash-a-b".data ∧
    "config-hash-".data ++ slugSpecOf "a!!b" = "config-hash-a--b".data ∧
    configHashLocalName "a!!b" ≠ "config-hash-".data ++ slugSpecOf "a!!b" := by
  decide

/-- C8 (amended): the derived hash-annotation local name equals
`config-hash-<slug(M)>` when that stays within 63 characters, where the slug
collapses each maximal run of characters outside `[A-Za-z0-9_.-]` into one
`-`, trims leading/trailing `-`/`.` and falls back to `"configmap"` when
empty; when it would exceed 63 characters the produced name has length at
most 63 and ends in `-` followed by the first 10 hex characters of
`sha256(M)`, so two long names with coinciding truncated stems derive
distinct annotation names whenever those 10-character digests differ. -/
theorem configHashLocalName_spec (m m2 : String) :
    (("config-hash-".data ++ normalizedNameOf m).length ≤ 63 →
      configHashLocalName m = "config-hash-".data ++ normalizedNameOf m) ∧
    (("config-hash-".data ++ normalizedNameOf m).length > 63 →
      (configHashLocalName m).length ≤ 63 ∧
      configHashLocalName m =
        "config-hash-".data ++ trimmedStem m ++ '-' :: (sha256hex m).data.take 10) ∧
    (("config-hash-".data ++ normalizedNameOf m).length > 63 →
      ("config-hash-".data ++ normalizedNameOf m2).length > 63 →
      trimmedStem m = trimmedStem m2 →
      (sha256hex m).data.take 10 ≠ (sha256hex m2).data.take 10 →
      configHashLocalName m ≠ configHashLocalName m2) := by
  refine ⟨?_, ?_, ?_⟩
  · intro hle
    unfold configHashLocalName
    rw [if_neg (by omega)]
  · intro hgt
    refine ⟨?_, configHashLocalName_long m hgt⟩
    rw [configHashLocalName_long m hgt]
    have h1 : ("config-hash-".data : List Char).length = 12 := by decide
    have h2 : ((sha256hex m).data.take 10).length = 10 := by
      rw [List.length_take, sha256hex_data_length]
      decide
    have h3 := trimmedStem_length m
    simp only [List.length_append, List.length_cons, h1, h2]
    omega
  · intro hgt hgt2 hstem hsuf heq
    rw [configHashLocalName_long m hgt, configHashLocalName_long m2 hgt2, hstem] at heq
    have h1 := List.append_cancel_left heq
    simp only [List.append_cancel_left_eq, List.cons.injEq, true_and] at h1
    exact hsuf h1

/-- Witness for C8: the short name `"helloworld-config"` maps straight to
`config-hash-helloworld-config`, and the 60- and 61-character all-`a` names
share their 40-character truncated stem yet get distinct annotation names. -/
theorem configHashLocalName_spec_witness :
    configHashLocalName "helloworld-config" = "config-hash-helloworld-config".data ∧
    configHashLocalName (String.mk (List.replicate 60 'a')) ≠
      configHashLocalName (String.mk (List.replicate 61 'a')) := by
  constructor
  · exact (configHashLocalName_spec "helloworld-config" "").1 (by decide)
  · exact (configHashLocalName_spec (String.mk (List.replicate 60 'a'))
      (String.mk (List.replicate 61 'a'))).2.2 (by decide) (by decide) (by decide)
      (by decide)

/-! ## Claim C2 — rollout-timestamp monotonicity -/

theorem digitChar_lt {d e : Nat} (hd : d < 10) (he : e < 10) (h : d < e) :
    digitChar d < digitChar e := by
  interval_cases d <;> interval_cases e <;> decide

theorem lexLt_append_left (p : List Char) {s t : List Char}
    (h : List.Lex (· < ·) s t) : List.Lex (· < ·) (p ++ s) (p ++ t) := by
  induction p with
  | nil => simpa using h
  | cons a p ih => exact List.Lex.cons ih

/-- Equal-width zero-padded decimal renderings compare lexicographically like
the numbers they denote, whatever follows them. -/
theorem padDigits_lt : ∀ (k m n : Nat) (r1 r2 : List Char), m < n → n < 10 ^ k →
    List.Lex (· < ·) (padDigits k m ++ r1) (padDigits k n ++ r2) := by
  intro k
  induction k with
  | zero =>
    intro m n r1 r2 hmn hn
    exact absurd hn (by simpa using Nat.not_lt.mpr (Nat.one_le_iff_ne_zero.mpr (by omega)))
  | succ k ih =>
    intro m n r1 r2 hmn hn
    simp only [padDigits, List.cons_append]
    have hnd : n / 10 ^ k < 10 := Nat.div_lt_of_lt_mul (by rw [← pow_succ]; exact hn)
    have hmd : m / 10 ^ k ≤ n / 10 ^ k := Nat.div_le_div_right hmn.le
    rcases Nat.lt_or_ge (m / 10 ^ k) (n / 10 ^ k) with hlt | hge
    · exact List.Lex.rel (digitChar_lt (lt_of_le_of_lt hmd hnd) hnd hlt)
    · have heq : m / 10 ^ k = n / 10 ^ k := le_antisymm hmd hge
      have h1 := Nat.div_add_mod m (10 ^ k)
      have h2 := Nat.div_add_mod n (10 ^ k)
      rw [heq] at h1
      have hmod : m % 10 ^ k < n % 10 ^ k := by omega
      have hn2 : n % 10 ^ k < 10 ^ k := Nat.mod_lt _ (by positivity)
      rw [heq]
      exact List.Lex.cons (ih _ _ r1 r2 hmod hn2)

theorem dtChars_lt_of_secLt {t1 t2 : PyDateTime} (h2 : dtValid t2)
    (h : dtSecLt t1 t2) : List.Lex (· < ·) (dtChars t1) (dtChars t2) := by
  obtain ⟨-, hy2, -, hmo2, -, hd2, hh2, hmi2, hs2, -⟩ := h2
  unfold dtChars
  rcases h with hy | ⟨hy, h⟩
  · exact padDigits_lt 4 _ _ _ _ hy (by omega)
  · rw [hy]
    refine lexLt_append_left (padDigits 4 t2.year) (List.Lex.cons ?_)
    rcases h with hmo | ⟨hmo, h⟩
    · exact padDigits_lt 2 _ _ _ _ hmo (by omega)
    · rw [hmo]
      refine lexLt_append_left (padDigits 2 t2.month) (List.Lex.cons ?_)
      rcases h with hd | ⟨hd, h⟩
      · exact padDigits_lt 2 _ _ _ _ hd (by omega)
      · rw [hd]
        refine lexLt_append_left (padDigits 2 t2.day) (List.Lex.cons ?_)
        rcases h with hh | ⟨hh, h⟩
        · exact padDigits_lt 2 _ _ _ _ hh (by omega)
        · rw [hh]
          refine lexLt_append_left (padDigits 2 t2.hour) (List.Lex.cons ?_)
          rcases h with hmi | ⟨hmi, h⟩
          · exact padDigits_lt 2 _ _ _ _ hmi (by omega)
          · rw [hmi]
            refine lexLt_append_left (padDigits 2 t2.minute) (List.Lex.cons ?_)
            exact padDigits_lt 2 _ _ _ _ h (by omega)

/-- C2 counterexample: two wall-clock instants inside the same second
(`08:30:00.100000` and `08:30:00.900000` on 2024-01-15) are strictly ordered
as instants, yet `utc_now_rfc3339` renders them as the *same* string — the
written rollout timestamps are not strictly increasing as strings for
arbitrary `t1 < t2`. -/
theorem utcNowRfc3339_not_strict_within_second :
    dtValid ⟨2024, 1, 15, 8, 30, 0, 100000⟩ ∧
    dtValid ⟨2024, 1, 15, 8, 30, 0, 900000⟩ ∧
    dtLt ⟨2024, 1, 15, 8, 30, 0, 100000⟩ ⟨2024, 1, 15, 8, 30, 0, 900000⟩ ∧
    utcNowRfc3339 ⟨2024, 1, 15, 8, 30, 0, 100000⟩ =
      utcNowRfc3339 ⟨2024, 1, 15, 8, 30, 0, 900000⟩ ∧
    ¬ (utcNowRfc3339 ⟨2024, 1, 15, 8, 30, 0, 100000⟩ <
        utcNowRfc3339 ⟨2024, 1, 15, 8, 30, 0, 900000⟩) := by
  have he : utcNowRfc3339 ⟨2024, 1, 15, 8, 30, 0, 100000⟩ =
      utcNowRfc3339 ⟨2024, 1, 15, 8, 30, 0, 900000⟩ := by decide
  refine ⟨by decide, by decide, by decide, he, ?_⟩
  rw [he]
  exact lt_irrefl _

/-- C2 (amended): the rollout-timestamp strings written by `utc_now_rfc3339`
are non-decreasing with wall-clock UTC — equal for instants within the same
wall-clock second, and strictly increasing as strings whenever the two
instants lie in different seconds. -/
theorem utcNowRfc3339_monotone (t1 t2 : PyDateTime)
    (_hv1 : dtValid t1) (hv2 : dtValid t2) :
    (dtSameSec t1 t2 → utcNowRfc3339 t1 = utcNowRfc3339 t2) ∧
    (dtSecLt t1 t2 → utcNowRfc3339 t1 < utcNowRfc3339 t2) := by
  refine ⟨fun hs => ?_, fun hl => ?_⟩
  · obtain ⟨e1, e2, e3, e4, e5, e6⟩ := hs
    unfold utcNowRfc3339 dtChars
    rw [e1, e2, e3, e4, e5, e6]
  · rw [String.lt_iff_toList_lt]
    exact dtChars_lt_of_secLt hv2 hl

/-- Witness for C2: the last microsecond of `08:30:00` formats strictly below
the first microsecond of `08:30:01`. -/
theorem utcNowRfc3339_monotone_witness :
    utcNowRfc3339 ⟨2024, 1, 15, 8, 30, 0, 999999⟩ <
      utcNowRfc3339 ⟨2024, 1, 15, 8, 30, 1, 0⟩ :=
  (utcNowRfc3339_monotone ⟨2024, 1, 15, 8, 30, 0, 999999⟩ ⟨2024, 1, 15, 8, 30, 1, 0⟩
    (by decide) (by decide)).2 (by decide)

end Shipshape
